import Mathlib

/-!
# cpp-playground: pointer and array snippets

A shallow embedding of the three C files of the repository over a small
block-structured memory:

* `return_an_array.c`: `set_array`, `set_array1`, `set_array2`, `set_array3`, `main`;
* `array_vs_&array.c`: `main` (pointer arithmetic over `int[5]` and `int[3][5]`);
* `char_array_vs_string_literal_pointer.c`: `main` (char array against literal pointer).

An object (a local array, a `malloc`ed region, a static array, a string
literal) is a block of cells. A pointer is a block index with an offset counted
in elements. An access the C standard leaves undefined is a `Fault`.
-/

namespace CPlayground

/-! ## Memory -/

/-- The undefined accesses the snippets can run into. -/
inductive Fault where
  | nullDeref
  | noObject
  | lifetimeEnded
  | outOfBounds
  | readOnly
  | indeterminate
  | unterminated
deriving DecidableEq, Repr

deriving instance DecidableEq for Except

/-- One object. A cell is `none` while its value is indeterminate (never written). -/
structure Block where
  cells : List (Option Int)
  live : Bool
  writable : Bool
deriving DecidableEq, Repr

/-- A pointer value: null, or an element offset into a block. -/
inductive Ptr where
  | null
  | obj (block : Nat) (off : Nat)
deriving DecidableEq, Repr

/-- The store: every object created so far, and the number of bytes the
allocator behind `malloc` is still able to hand out. -/
structure Mem where
  blocks : List Block
  avail : Nat
deriving DecidableEq, Repr

/-- Pointer plus integer, `p + k`, in elements of the pointed-to type. -/
def Ptr.add : Ptr → Nat → Ptr
  | .null, _ => .null
  | .obj b o, k => .obj b (o + k)

/-- Value of `sizeof(int)` in bytes. -/
def sizeof_int : Nat := 4

/-- Reading `*p`. -/
def load (m : Mem) : Ptr → Except Fault Int
  | .null => .error .nullDeref
  | .obj b o =>
    match m.blocks[b]? with
    | none => .error .noObject
    | some blk =>
      if blk.live = false then .error .lifetimeEnded
      else match blk.cells[o]? with
        | none => .error .outOfBounds
        | some none => .error .indeterminate
        | some (some v) => .ok v

/-- Assignment `*p = v`. -/
def store (m : Mem) (p : Ptr) (v : Int) : Except Fault Mem :=
  match p with
  | .null => .error .nullDeref
  | .obj b o =>
    match m.blocks[b]? with
    | none => .error .noObject
    | some blk =>
      if blk.live = false then .error .lifetimeEnded
      else if blk.writable = false then .error .readOnly
      else if o < blk.cells.length then
        .ok { m with blocks := m.blocks.set b { blk with cells := blk.cells.set o (some v) } }
      else .error .outOfBounds

/-- A new live, writable object with the given cells; its index is returned. -/
def newBlock (m : Mem) (cells : List (Option Int)) : Nat × Mem :=
  (m.blocks.length,
   { m with blocks := m.blocks ++ [{ cells := cells, live := true, writable := true }] })

/-- End of an object's lifetime (a local when its function returns). -/
def endLifetime (m : Mem) (b : Nat) : Mem :=
  match m.blocks[b]? with
  | none => m
  | some blk => { m with blocks := m.blocks.set b { blk with live := false } }

/-- Library `malloc(size)` for a request of `size` bytes holding `int`s: the
null pointer when the allocator cannot satisfy the request, else a pointer to a
new object of `size / sizeof(int)` cells of indeterminate value. -/
def malloc (m : Mem) (size : Nat) : Ptr × Mem :=
  if size ≤ m.avail then
    let r := newBlock { m with avail := m.avail - size } (List.replicate (size / sizeof_int) none)
    (.obj r.1 0, r.2)
  else (.null, m)

/-! ## `return_an_array.c` -/

/-- The loop `for (int i = 0; i < 5; i++) array[i] = value;` shared verbatim by
the four `set_array` functions. -/
def fill5 (value : Int) (array : Ptr) (m : Mem) : Except Fault Mem :=
  (List.range 5).foldlM (fun m i => store m (array.add i) value) m

/-- Function `void set_array1(int value, int *array)`. -/
def set_array1 (value : Int) (array : Ptr) (m : Mem) : Except Fault Mem :=
  fill5 value array m

/-- Function `int *set_array(int value)`: `array_local` is a local of indeterminate
initial value whose lifetime ends when the function returns; the pointer
handed back still names that object. -/
def set_array (value : Int) (m : Mem) : Except Fault (Ptr × Mem) := do
  let (array_local, m) := newBlock m (List.replicate 5 none)
  let m ← fill5 value (.obj array_local 0) m
  return (.obj array_local 0, endLifetime m array_local)

/-- Function `int *set_array2(int value)`: the result of `malloc` is written through
without being compared to the null pointer. -/
def set_array2 (value : Int) (m : Mem) : Except Fault (Ptr × Mem) := do
  let (array, m) := malloc m (sizeof_int * 5)
  let m ← fill5 value array m
  return (array, m)

/-- Block index of `static int array[5]` of `set_array3`: the one object of
`return_an_array.c` with static storage duration. -/
def array3 : Nat := 0

/-- Function `int *set_array3(int value)`. -/
def set_array3 (value : Int) (m : Mem) : Except Fault (Ptr × Mem) := do
  let m ← fill5 value (.obj array3 0) m
  return (.obj array3 0, m)

/-- The store when `return_an_array.c` starts: the static array, zero-initialised. -/
def start1 (avail : Nat) : Mem :=
  { blocks := [{ cells := List.replicate 5 (some 0), live := true, writable := true }],
    avail := avail }

namespace ReturnAnArray

/-- Function `int main()` of `return_an_array.c`: the exit status, the lines printed and
the store left behind. -/
def main (m : Mem) : Except Fault (Int × List String × Mem) := do
  let (array, m) := newBlock m [some 1, some 2, some 3, some 4, some 5]
  let (result, m) ← set_array3 4 m
  let out ← (List.range 5).mapM (fun i => do
    let v ← load m (result.add i)
    pure s!"result[{i}] = {v}\n")
  return (0, out, endLifetime m array)

end ReturnAnArray

/-! ## `array_vs_&array.c` -/

/-- Pointer plus integer for a pointer of type `int (*)[5]`: one step is a
whole `int[5]`, five elements. -/
def Ptr.addRow (p : Ptr) (k : Nat) : Ptr := p.add (5 * k)

/-- The number `printf` shows for a pointer, given where each object was placed. -/
def address (base : Nat → Nat) : Ptr → Nat
  | .null => 0
  | .obj b o => base b + sizeof_int * o

/-- The initialiser of `int matrix[3][5]`, row by row. -/
def matrix_init : List (List Int) :=
  [[0, 1, 2, 3, 4], [5, 6, 7, 8, 9], [10, 11, 12, 13, 14]]

/-- An array of arrays is laid out row after row in one object. -/
def rowMajor (rows : List (List Int)) : List (Option Int) :=
  rows.flatten.map some

/-- Expression `&matrix[r]` of type `int (*)[5]`. -/
def addrRow (matrix : Ptr) (r : Nat) : Ptr := matrix.addRow r

/-- Expression `matrix[r][c]`. -/
def index2 (m : Mem) (matrix : Ptr) (r c : Nat) : Except Fault Int :=
  load m ((matrix.addRow r).add c)

/-- Expression `*(*(&matrix[r] + 1))`: the inner `*` yields an `int[5]`, which
decays to a pointer to its first element, the outer `*` reads it. -/
def derefTwice (m : Mem) (matrix : Ptr) (r : Nat) : Except Fault Int :=
  load m ((addrRow matrix r).addRow 1)

/-- The store when `array_vs_&array.c` starts: no object yet. -/
def start2 (avail : Nat) : Mem :=
  { blocks := [], avail := avail }

namespace ArrayVsAddrArray

/-- Function `int main()` of `array_vs_&array.c`; `base` gives the address at which each
object was placed. -/
def main (base : Nat → Nat) (m : Mem) : Except Fault (Int × List String × Mem) := do
  let (array, m) := newBlock m (List.replicate 5 none)
  let m ← store m ((Ptr.obj array 0).add 2) 2
  let a1 := address base (.obj array 0)
  let o1 := s!"array: {a1} \n"
  let a2 := address base ((Ptr.obj array 0).add 1)
  let o2 := s!"array + 1: {a2} \n"
  let a3 := address base (.obj array 0)
  let o3 := s!"&array: {a3} \n"
  let a4 := address base ((Ptr.obj array 0).addRow 1)
  let o4 := s!"&array + 1: {a4} \n"
  let (matrix, m) := newBlock m (rowMajor matrix_init)
  let a5 := address base (addrRow (.obj matrix 0) 1)
  let o5 := s!"&matrix[1]: {a5}\n"
  let a6 := address base ((addrRow (.obj matrix 0) 1).addRow 1)
  let o6 := s!"&matrix[1] + 1: {a6}\n"
  let a7 := address base ((addrRow (.obj matrix 0) 1).addRow 1)
  let o7 := s!"*(&matrix[1] + 1): {a7}\n\n"
  let pointer := (addrRow (.obj matrix 0) 1).addRow 1
  let a8 := address base pointer
  let o8 := s!"pointer: {a8}\n"
  let v ← load m pointer
  let o9 := s!"*pointer: {v}\n"
  let w ← derefTwice m (.obj matrix 0) 1
  let o10 := s!"*(*(&matrix[1] + 1)): {w}\n\n"
  return (0, [o1, o2, o3, o4, o5, o6, o7, o8, o9, o10],
    endLifetime (endLifetime m matrix) array)

end ArrayVsAddrArray

/-! ## `char_array_vs_string_literal_pointer.c` -/

/-- The bytes of a string literal: its characters, then the terminating NUL. -/
def literal (s : String) : List (Option Int) :=
  s.toList.map (fun c => some (c.toNat : Int)) ++ [some 0]

/-- The characters from the head of `cells` up to the first NUL. -/
def scan : List (Option Int) → Except Fault (List Int)
  | [] => .error .unterminated
  | none :: _ => .error .indeterminate
  | some c :: rest => if c = 0 then .ok [] else (scan rest).map (c :: ·)

/-- The string `printf` shows for `%s`. -/
def cstring (m : Mem) : Ptr → Except Fault String
  | .null => .error .nullDeref
  | .obj b o =>
    match m.blocks[b]? with
    | none => .error .noObject
    | some blk =>
      if blk.live = false then .error .lifetimeEnded
      else (scan (blk.cells.drop o)).map (fun cs => String.mk (cs.map (fun c => Char.ofNat c.toNat)))

/-- Block index of the literal `"literal"` that `s2` is initialised with. -/
def lit_literal : Nat := 0

/-- Block index of the literal `"new literal"`. -/
def lit_new_literal : Nat := 1

/-- The store when `char_array_vs_string_literal_pointer.c` starts: its string
literals, static and read-only. -/
def start3 (avail : Nat) : Mem :=
  { blocks := [{ cells := literal "literal", live := true, writable := false },
               { cells := literal "new literal", live := true, writable := false }],
    avail := avail }

namespace CharArrayVsStringLiteralPointer

/-- The locals, the output and the store of `main` on reaching `return 0;`. -/
structure Frame where
  s1 : Nat
  s2 : Ptr
  out : List String
  mem : Mem
deriving DecidableEq, Repr

/-- Value of `sizeof(s1)`: `s1` has type `char[8]`, one byte for each element of
its initialiser. -/
def sizeof_s1 : Nat := (literal "literal").length

/-- The statements of `main` up to `return 0;`. `sizeof_ptr` is the value of
`sizeof(char *)` on the platform. -/
def body (sizeof_ptr : Nat) (m : Mem) : Except Fault Frame := do
  let (s1, m) := newBlock m (literal "literal")
  let m ← store m (.obj s1 0) 'X'.toNat
  let t1 ← cstring m (.obj s1 0)
  let o1 := s!"s1: {t1}\n"
  let s2 := Ptr.obj lit_literal 0
  let s2 := s2.add 1
  let t2 ← cstring m s2
  let o2 := s!"s2: {t2}\n"
  let s2 := Ptr.obj lit_new_literal 0
  let t3 ← cstring m s2
  let o3 := s!"s2: {t3}\n"
  let o4 := s!"size of s1: {sizeof_s1}\n"
  let o5 := s!"size of s2: {sizeof_ptr}\n"
  return { s1 := s1, s2 := s2, out := [o1, o2, o3, o4, o5], mem := m }

/-- Function `int main()` of `char_array_vs_string_literal_pointer.c`. -/
def main (sizeof_ptr : Nat) (m : Mem) : Except Fault (Int × List String × Mem) := do
  let f ← body sizeof_ptr m
  return (0, f.out, endLifetime f.mem f.s1)

end CharArrayVsStringLiteralPointer

/-- A store for examples: the zero-initialised static array of `set_array3`,
then a caller's array of five with assorted contents (one element never
written, one at `INT_MAX`), then a caller's array of seven. -/
def sample : Mem :=
  { blocks := [{ cells := List.replicate 5 (some 0), live := true, writable := true },
               { cells := [some 1, none, some 3, some 2147483647, some 5],
                 live := true, writable := true },
               { cells := [some 1, some 2, some 3, some 4, some 5, some 6, some 7],
                 live := true, writable := true }],
    avail := 64 }

/-! ## Store lemmas -/

theorem store_ok {m : Mem} {b o : Nat} {blk : Block} (v : Int)
    (hb : m.blocks[b]? = some blk) (hl : blk.live = true) (hw : blk.writable = true)
    (ho : o < blk.cells.length) :
    store m (.obj b o) v =
      .ok { m with blocks := m.blocks.set b { blk with cells := blk.cells.set o (some v) } } := by
  simp [store, hb, hl, hw, ho]

theorem load_ok {m : Mem} {b o : Nat} {blk : Block} {v : Int}
    (hb : m.blocks[b]? = some blk) (hl : blk.live = true)
    (ho : blk.cells[o]? = some (some v)) :
    load m (.obj b o) = .ok v := by
  simp [load, hb, hl, ho]

theorem load_dead {m : Mem} {b : Nat} {blk : Block} (o : Nat)
    (hb : m.blocks[b]? = some blk) (hl : blk.live = false) :
    load m (.obj b o) = .error .lifetimeEnded := by
  simp [load, hb, hl]

theorem lt_of_getElem? {α : Type} {l : List α} {i : Nat} {a : α} (h : l[i]? = some a) :
    i < l.length := by
  rcases List.getElem?_eq_some.mp h with ⟨hi, _⟩
  exact hi

/-- Writing `v` at the offsets `o + i`, `i` in `is`, of a live writable block
succeeds, and changes the cells at those offsets of that block and nothing else. -/
theorem fill_list (v : Int) (b o : Nat) (is : List Nat) :
    ∀ (m : Mem) (blk : Block), m.blocks[b]? = some blk → blk.live = true →
      blk.writable = true → (∀ i ∈ is, o + i < blk.cells.length) →
      ∃ cells : List (Option Int), cells.length = blk.cells.length ∧
        (∀ j, (∃ i ∈ is, j = o + i) → cells[j]? = some (some v)) ∧
        (∀ j, (¬ ∃ i ∈ is, j = o + i) → cells[j]? = blk.cells[j]?) ∧
        is.foldlM (fun m i => store m ((Ptr.obj b o).add i) v) m =
          .ok { m with blocks := m.blocks.set b { blk with cells := cells } } := by
  induction is with
  | nil =>
    intro m blk hb _ _ _
    refine ⟨blk.cells, rfl, ?_, ?_, ?_⟩
    · rintro j ⟨i, hi, _⟩
      cases hi
    · intro j _
      rfl
    · have hlt := lt_of_getElem? hb
      have hset : m.blocks.set b blk = m.blocks := by
        apply List.ext_getElem?
        intro n
        by_cases hn : b = n
        · subst hn
          rw [List.getElem?_set_self hlt, hb]
        · rw [List.getElem?_set_ne hn]
      simp [hset, pure, Except.pure]
  | cons i is ih =>
    intro m blk hb hl hw hin
    have hlt := lt_of_getElem? hb
    have hi : o + i < blk.cells.length := hin i (List.mem_cons_self _ _)
    have hb1 : (m.blocks.set b { blk with cells := blk.cells.set (o + i) (some v) })[b]? =
        some { blk with cells := blk.cells.set (o + i) (some v) } :=
      List.getElem?_set_self hlt
    obtain ⟨cells, hlen, hin', hout', hrun⟩ :=
      ih { m with blocks := m.blocks.set b { blk with cells := blk.cells.set (o + i) (some v) } }
        { blk with cells := blk.cells.set (o + i) (some v) } hb1 hl hw
        (by
          intro k hk
          simpa using hin k (List.mem_cons_of_mem _ hk))
    refine ⟨cells, by simpa using hlen, ?_, ?_, ?_⟩
    · rintro j ⟨k, hk, rfl⟩
      by_cases hmem : ∃ k' ∈ is, o + k = o + k'
      · exact hin' _ hmem
      · rcases List.mem_cons.mp hk with rfl | hk'
        · rw [hout' _ hmem]
          exact List.getElem?_set_self hi
        · exact absurd ⟨k, hk', rfl⟩ hmem
    · intro j hj
      have hj1 : ¬ ∃ k ∈ is, j = o + k := by
        rintro ⟨k, hk, rfl⟩
        exact hj ⟨k, List.mem_cons_of_mem _ hk, rfl⟩
      have hj2 : o + i ≠ j := by
        rintro rfl
        exact hj ⟨i, List.mem_cons_self _ _, rfl⟩
      rw [hout' _ hj1]
      exact List.getElem?_set_ne hj2
    · rw [List.foldlM_cons]
      have hst := store_ok (m := m) (b := b) (o := o + i) v hb hl hw hi
      simp only [Ptr.add] at hst ⊢
      rw [hst]
      simp only [bind, Except.bind]
      simp only [Ptr.add] at hrun
      rw [hrun]
      simp [List.set_set]

/-- The loop of the `set_array` functions on five writable elements. -/
theorem fill5_ok (v : Int) {m : Mem} {b o : Nat} {blk : Block}
    (hb : m.blocks[b]? = some blk) (hl : blk.live = true) (hw : blk.writable = true)
    (h5 : o + 5 ≤ blk.cells.length) :
    ∃ cells : List (Option Int), cells.length = blk.cells.length ∧
      (∀ j, o ≤ j → j < o + 5 → cells[j]? = some (some v)) ∧
      (∀ j, (j < o ∨ o + 5 ≤ j) → cells[j]? = blk.cells[j]?) ∧
      fill5 v (.obj b o) m = .ok { m with blocks := m.blocks.set b { blk with cells := cells } } := by
  obtain ⟨cells, hlen, hin, hout, hrun⟩ :=
    fill_list v b o (List.range 5) m blk hb hl hw (by
      intro i hi
      have := List.mem_range.mp hi
      omega)
  refine ⟨cells, hlen, ?_, ?_, hrun⟩
  · intro j h1 h2
    exact hin j ⟨j - o, List.mem_range.mpr (by omega), by omega⟩
  · intro j hj
    apply hout
    rintro ⟨i, hi, rfl⟩
    have := List.mem_range.mp hi
    omega

theorem cells_eq_replicate {cells : List (Option Int)} {v : Int} (hlen : cells.length = 5)
    (h : ∀ j, 0 ≤ j → j < 0 + 5 → cells[j]? = some (some v)) :
    cells = List.replicate 5 (some v) := by
  apply List.ext_getElem?
  intro j
  by_cases hj : j < 5
  · rw [h j (Nat.zero_le _) (by omega), List.getElem?_replicate_of_lt hj]
  · rw [List.getElem?_eq_none (by omega), List.getElem?_eq_none (by simp; omega)]

theorem set_concat_length {α : Type} (l : List α) (a a' : α) :
    (l ++ [a]).set l.length a' = l ++ [a'] := by
  apply List.ext_getElem?
  intro n
  by_cases hn : l.length = n
  · subst hn
    rw [List.getElem?_set_self (by simp), List.getElem?_concat_length]
  · rw [List.getElem?_set_ne hn]
    by_cases hlt : n < l.length
    · rw [List.getElem?_append_left hlt, List.getElem?_append_left hlt]
    · rw [List.getElem?_eq_none (by simp; omega), List.getElem?_eq_none (by simp; omega)]

/-- On a static array of five elements `set_array3` returns the pointer to it,
every element set to the value. -/
theorem set_array3_spec (v : Int) {m : Mem} {blk : Block}
    (hb : m.blocks[array3]? = some blk) (hl : blk.live = true) (hw : blk.writable = true)
    (h5 : blk.cells.length = 5) :
    set_array3 v m = .ok (.obj array3 0,
      { m with blocks := m.blocks.set array3 { blk with cells := List.replicate 5 (some v) } }) := by
  obtain ⟨cells, hlen, hin, _, hrun⟩ := fill5_ok v hb hl hw (by omega : 0 + 5 ≤ blk.cells.length)
  have hc : cells = List.replicate 5 (some v) := cells_eq_replicate (by omega) hin
  subst hc
  simp [set_array3, hrun, bind, Except.bind, pure, Except.pure]

/-- When the allocator can still hand out the twenty bytes asked for,
`set_array2` returns a pointer to a new object of five elements equal to the
value, and leaves every other object as it was. -/
theorem set_array2_spec (v : Int) (m : Mem) (h : sizeof_int * 5 ≤ m.avail) :
    set_array2 v m = .ok (.obj m.blocks.length 0,
      { blocks := m.blocks ++ [{ cells := List.replicate 5 (some v), live := true, writable := true }],
        avail := m.avail - sizeof_int * 5 }) := by
  have hb : (m.blocks ++ [({ cells := List.replicate 5 none, live := true, writable := true } : Block)])[
      m.blocks.length]? = some { cells := List.replicate 5 none, live := true, writable := true } :=
    List.getElem?_concat_length _ _
  obtain ⟨cells, hlen, hin, _, hrun⟩ :=
    fill5_ok v
      (m := { blocks := m.blocks ++ [{ cells := List.replicate 5 none, live := true, writable := true }],
              avail := m.avail - sizeof_int * 5 })
      (o := 0) hb rfl rfl (by simp)
  have hc : cells = List.replicate 5 (some v) := cells_eq_replicate (by simpa using hlen) hin
  subst hc
  have hm : malloc m (sizeof_int * 5) = (.obj m.blocks.length 0,
      { blocks := m.blocks ++ [{ cells := List.replicate 5 none, live := true, writable := true }],
        avail := m.avail - sizeof_int * 5 }) := by
    have h20 : 20 ≤ m.avail := by simpa [sizeof_int] using h
    simp [malloc, h20, newBlock, sizeof_int]
  simp only [set_array2, hm, hrun, bind, Except.bind, pure, Except.pure]
  simp [set_concat_length]

/-- What `set_array` does in every store: it returns a pointer to a new object
that holds the value five times and whose lifetime has ended. -/
theorem set_array_spec (v : Int) (m : Mem) :
    set_array v m = .ok (.obj m.blocks.length 0,
      { blocks := m.blocks ++ [{ cells := List.replicate 5 (some v), live := false, writable := true }],
        avail := m.avail }) := by
  have hb : (m.blocks ++ [({ cells := List.replicate 5 none, live := true, writable := true } : Block)])[
      m.blocks.length]? = some { cells := List.replicate 5 none, live := true, writable := true } :=
    List.getElem?_concat_length _ _
  obtain ⟨cells, hlen, hin, _, hrun⟩ :=
    fill5_ok v
      (m := { blocks := m.blocks ++ [{ cells := List.replicate 5 none, live := true, writable := true }],
              avail := m.avail })
      (o := 0) hb rfl rfl (by simp)
  have hc : cells = List.replicate 5 (some v) := cells_eq_replicate (by simpa using hlen) hin
  subst hc
  simp only [set_array, newBlock, hrun, bind, Except.bind, pure, Except.pure]
  simp [set_concat_length, endLifetime, List.getElem?_concat_length]

theorem load_replicate {m : Mem} {b i : Nat} {blk : Block} {v : Int}
    (hb : m.blocks[b]? = some blk) (hl : blk.live = true)
    (hc : blk.cells = List.replicate 5 (some v)) (hi : i < 5) :
    load m (.obj b i) = .ok v :=
  load_ok hb hl (by rw [hc, List.getElem?_replicate_of_lt hi])

/-! ## `return_an_array.c`: properties -/

/-- C1: for every fill value `v` and every live, writable caller buffer of exactly
five elements, whatever it held, `set_array1(v, buffer)` returns normally and
leaves the buffer with five elements each equal to `v`; each of `buffer[0]`
to `buffer[4]` then reads as `v`. -/
theorem set_array1_fills (v : Int) (m : Mem) (b : Nat) (blk : Block)
    (hb : m.blocks[b]? = some blk) (hl : blk.live = true) (hw : blk.writable = true)
    (h5 : blk.cells.length = 5) :
    ∃ m', set_array1 v (.obj b 0) m = .ok m' ∧
      m'.blocks[b]? = some { blk with cells := List.replicate 5 (some v) } ∧
      ∀ i, i < 5 → load m' ((Ptr.obj b 0).add i) = .ok v := by
  obtain ⟨cells, hlen, hin, _, hrun⟩ := fill5_ok v hb hl hw (by omega : 0 + 5 ≤ blk.cells.length)
  have hc : cells = List.replicate 5 (some v) := cells_eq_replicate (by omega) hin
  subst hc
  have hnew : (m.blocks.set b { blk with cells := List.replicate 5 (some v) })[b]? =
      some { blk with cells := List.replicate 5 (some v) } :=
    List.getElem?_set_self (lt_of_getElem? hb)
  refine ⟨_, hrun, hnew, ?_⟩
  intro i hi
  simp only [Ptr.add, Nat.zero_add]
  exact load_replicate hnew hl rfl hi

/-- C1 at the fill value `INT_MIN`, on a buffer holding `INT_MAX` and a
never-written element. -/
theorem set_array1_fills_witness :
    sample.blocks[1]? = some { cells := [some 1, none, some 3, some 2147483647, some 5],
                               live := true, writable := true } ∧
    ∃ m', set_array1 (-2147483648) (.obj 1 0) sample = .ok m' ∧
      m'.blocks[1]? = some { cells := List.replicate 5 (some (-2147483648)),
                             live := true, writable := true } ∧
      ∀ i, i < 5 → load m' ((Ptr.obj 1 0).add i) = .ok (-2147483648) :=
  ⟨rfl, set_array1_fills (-2147483648) sample 1 _ rfl rfl rfl rfl⟩

/-- C6: `set_array1(v, array)` on a buffer with at least five elements from
`array` on returns normally and changes the five elements `array[0]` to
`array[4]` at most: the object keeps its length, every element of it outside
those five keeps its prior value (the elements at index 5 and more among
them), every other object is as it was, the static array of `set_array3`
among them, no object is created and the allocator is untouched. -/
theorem set_array1_frame (v : Int) (m : Mem) (b o : Nat) (blk : Block)
    (hb : m.blocks[b]? = some blk) (hl : blk.live = true) (hw : blk.writable = true)
    (h5 : o + 5 ≤ blk.cells.length) :
    ∃ m' blk', set_array1 v (.obj b o) m = .ok m' ∧
      m'.blocks[b]? = some blk' ∧
      blk'.cells.length = blk.cells.length ∧
      blk'.live = blk.live ∧ blk'.writable = blk.writable ∧
      (∀ j, j < o ∨ o + 5 ≤ j → blk'.cells[j]? = blk.cells[j]?) ∧
      (∀ b', b' ≠ b → m'.blocks[b']? = m.blocks[b']?) ∧
      (b ≠ array3 → m'.blocks[array3]? = m.blocks[array3]?) ∧
      m'.blocks.length = m.blocks.length ∧
      m'.avail = m.avail := by
  obtain ⟨cells, hlen, _, hout, hrun⟩ := fill5_ok v hb hl hw h5
  have hne : ∀ b', b' ≠ b →
      (m.blocks.set b { blk with cells := cells })[b']? = m.blocks[b']? := by
    intro b' h
    exact List.getElem?_set_ne (Ne.symm h)
  refine ⟨_, { blk with cells := cells }, hrun,
    List.getElem?_set_self (lt_of_getElem? hb), hlen, rfl, rfl, hout, hne, ?_, ?_, rfl⟩
  · intro h
    exact hne array3 (Ne.symm h)
  · simp

/-- C6 on a buffer of seven elements: the elements at index 5 and 6 and the
static array are as before. -/
theorem set_array1_frame_witness :
    sample.blocks[2]? = some { cells := [some 1, some 2, some 3, some 4, some 5, some 6, some 7],
                               live := true, writable := true } ∧
    ∃ m' blk', set_array1 9 (.obj 2 0) sample = .ok m' ∧
      m'.blocks[2]? = some blk' ∧
      blk'.cells.length = 7 ∧
      blk'.live = true ∧ blk'.writable = true ∧
      (∀ j, j < 0 ∨ 0 + 5 ≤ j →
        blk'.cells[j]? = [some 1, some 2, some 3, some 4, some 5, some 6, some (7 : Int)][j]?) ∧
      (∀ b', b' ≠ 2 → m'.blocks[b']? = sample.blocks[b']?) ∧
      (2 ≠ array3 → m'.blocks[array3]? = sample.blocks[array3]?) ∧
      m'.blocks.length = sample.blocks.length ∧
      m'.avail = sample.avail :=
  ⟨rfl, set_array1_frame 9 sample 2 0 _ rfl rfl rfl (by decide)⟩

/-- C2: whatever the static array of `set_array3` held, `set_array3(v)` returns
normally with a pointer to that array, which then has five elements each equal
to `v`, each reading as `v`; and `main`, which calls `set_array3(4)`, exits with
status 0 having printed 4 for each of `result[0]` to `result[4]`. -/
theorem set_array3_fills (v : Int) (m : Mem) (blk : Block)
    (hb : m.blocks[array3]? = some blk) (hl : blk.live = true) (hw : blk.writable = true)
    (h5 : blk.cells.length = 5) :
    (∃ m', set_array3 v m = .ok (.obj array3 0, m') ∧
      m'.blocks[array3]? = some { blk with cells := List.replicate 5 (some v) } ∧
      ∀ i, i < 5 → load m' ((Ptr.obj array3 0).add i) = .ok v) ∧
    (∃ m', ReturnAnArray.main m = .ok (0,
      ["result[0] = 4\n", "result[1] = 4\n", "result[2] = 4\n", "result[3] = 4\n",
       "result[4] = 4\n"], m') ∧
      m'.blocks[array3]? = some { blk with cells := [some 4, some 4, some 4, some 4, some 4] }) := by
  have hlt := lt_of_getElem? hb
  constructor
  · have hnew : (m.blocks.set array3 { blk with cells := List.replicate 5 (some v) })[array3]? =
        some { blk with cells := List.replicate 5 (some v) } :=
      List.getElem?_set_self hlt
    refine ⟨_, set_array3_spec v hb hl hw h5, hnew, ?_⟩
    intro i hi
    simp only [Ptr.add, Nat.zero_add]
    exact load_replicate hnew hl rfl hi
  · have hb1 : (m.blocks ++ [(⟨[some 1, some 2, some 3, some 4, some 5], true, true⟩ : Block)])[array3]? = some blk := by
      rw [List.getElem?_append_left hlt, hb]
    have hrun := set_array3_spec 4
      (m := { blocks := m.blocks ++ [⟨[some 1, some 2, some 3, some 4, some 5], true, true⟩], avail := m.avail }) hb1 hl hw h5
    have hnew : ((m.blocks ++ [(⟨[some 1, some 2, some 3, some 4, some 5], true, true⟩ : Block)]).set array3
          { blk with cells := List.replicate 5 (some 4) })[array3]? =
        some { blk with cells := List.replicate 5 (some 4) } :=
      List.getElem?_set_self (by simp; omega)
    have hload : ∀ i, i < 5 → load
        { blocks := (m.blocks ++ [(⟨[some 1, some 2, some 3, some 4, some 5], true, true⟩ : Block)]).set array3
              { blk with cells := List.replicate 5 (some 4) }, avail := m.avail }
        (.obj array3 i) = .ok 4 := by
      intro i hi
      exact load_replicate hnew hl rfl hi
    have hr : List.range 5 = [0, 1, 2, 3, 4] := by decide
    have hend : ∀ (bs : List Block) (k : Nat), array3 < bs.length → array3 ≠ k →
        (endLifetime { blocks := bs, avail := m.avail } k).blocks[array3]? = bs[array3]? := by
      intro bs k _ hk
      unfold endLifetime
      split
      · rfl
      · exact List.getElem?_set_ne (Ne.symm hk)
    have hmain : ReturnAnArray.main m = .ok (0,
        ["result[0] = 4\n", "result[1] = 4\n", "result[2] = 4\n", "result[3] = 4\n",
         "result[4] = 4\n"],
        endLifetime
          { blocks := (m.blocks ++ [(⟨[some 1, some 2, some 3, some 4, some 5], true, true⟩ : Block)]).set
              array3 { blk with cells := List.replicate 5 (some 4) }, avail := m.avail }
          m.blocks.length) := by
      simp only [ReturnAnArray.main, newBlock, hrun, bind, Except.bind, pure, Except.pure, hr,
        List.mapM_cons, List.mapM_nil, Ptr.add, Nat.zero_add, hload 0 (by decide),
        hload 1 (by decide), hload 2 (by decide), hload 3 (by decide), hload 4 (by decide)]
      rfl
    refine ⟨_, hmain, ?_⟩
    rw [hend _ _ (by simp; omega) (by
      have : 0 < m.blocks.length := hlt
      simp only [array3]
      omega)]
    rw [hnew]
    rfl

/-- C2 from the store in which the program starts: the static array holds zeros. -/
theorem set_array3_fills_witness :
    (start1 0).blocks[array3]? = some { cells := List.replicate 5 (some 0),
                                        live := true, writable := true } ∧
    ((∃ m', set_array3 4 (start1 0) = .ok (.obj array3 0, m') ∧
      m'.blocks[array3]? = some { cells := List.replicate 5 (some 4),
                                  live := true, writable := true } ∧
      ∀ i, i < 5 → load m' ((Ptr.obj array3 0).add i) = .ok 4) ∧
    (∃ m', ReturnAnArray.main (start1 0) = .ok (0,
      ["result[0] = 4\n", "result[1] = 4\n", "result[2] = 4\n", "result[3] = 4\n",
       "result[4] = 4\n"], m') ∧
      m'.blocks[array3]? = some { cells := [some 4, some 4, some 4, some 4, some 4],
                                  live := true, writable := true })) :=
  ⟨rfl, set_array3_fills 4 (start1 0) _ rfl rfl rfl rfl⟩

theorem malloc_avail {m : Mem} (h : (malloc m (sizeof_int * 5)).1 ≠ Ptr.null) :
    sizeof_int * 5 ≤ m.avail := by
  by_contra hlt
  apply h
  simp [malloc, hlt]

theorem load_appended {bs : List Block} {a : Nat} {blk : Block} {v : Int} {i : Nat}
    (hl : blk.live = true) (hc : blk.cells = List.replicate 5 (some v)) (hi : i < 5) :
    load { blocks := bs ++ [blk], avail := a } ((Ptr.obj bs.length 0).add i) = .ok v := by
  simp only [Ptr.add, Nat.zero_add]
  exact load_replicate (List.getElem?_concat_length _ _) hl hc hi

theorem getElem?_appended_ne {bs : List Block} {blk : Block} {b : Nat} (h : b ≠ bs.length) :
    (bs ++ [blk])[b]? = bs[b]? := by
  by_cases hlt : b < bs.length
  · exact List.getElem?_append_left hlt
  · rw [List.getElem?_eq_none (by simp; omega), List.getElem?_eq_none (by omega)]

/-- C3, the counterexample: with 19 bytes left the allocation of 20 fails,
`malloc` returns the null pointer and `set_array2(4)` writes through it: the
call is undefined and returns no buffer. -/
theorem set_array2_null_counterexample :
    (malloc (start1 19) (sizeof_int * 5)).1 = Ptr.null ∧
    set_array2 4 (start1 19) = .error .nullDeref ∧
    ¬ ∃ r, set_array2 4 (start1 19) = .ok r := by
  have h : set_array2 4 (start1 19) = .error .nullDeref := by decide
  refine ⟨by decide, h, ?_⟩
  rintro ⟨r, hr⟩
  rw [h] at hr
  cases hr

/-- C3, amended: for every fill value `v` and every call in which `malloc` returns
a non-null pointer, `set_array2(v)` returns normally with a pointer to the
start of a new object (no object of the store before the call), live and
writable, of five elements each equal to `v`, each reading as `v`; every object
that existed before the call is as it was. -/
theorem set_array2_fills (v : Int) (m : Mem)
    (h : (malloc m (sizeof_int * 5)).1 ≠ Ptr.null) :
    ∃ b m', set_array2 v m = .ok (.obj b 0, m') ∧
      m.blocks[b]? = none ∧
      m'.blocks[b]? = some { cells := List.replicate 5 (some v), live := true, writable := true } ∧
      (∀ i, i < 5 → load m' ((Ptr.obj b 0).add i) = .ok v) ∧
      (∀ b', b' ≠ b → m'.blocks[b']? = m.blocks[b']?) := by
  refine ⟨m.blocks.length, _, set_array2_spec v m (malloc_avail h),
    List.getElem?_eq_none (Nat.le_refl _), List.getElem?_concat_length _ _, ?_, ?_⟩
  · intro i hi
    exact load_appended rfl rfl hi
  · intro b' hb'
    exact getElem?_appended_ne hb'

/-- C3, amended, with 64 bytes left. -/
theorem set_array2_fills_witness :
    (malloc sample (sizeof_int * 5)).1 ≠ Ptr.null ∧
    ∃ b m', set_array2 (-7) sample = .ok (.obj b 0, m') ∧
      sample.blocks[b]? = none ∧
      m'.blocks[b]? = some { cells := List.replicate 5 (some (-7)), live := true, writable := true } ∧
      (∀ i, i < 5 → load m' ((Ptr.obj b 0).add i) = .ok (-7)) ∧
      (∀ b', b' ≠ b → m'.blocks[b']? = sample.blocks[b']?) :=
  ⟨by decide, set_array2_fills (-7) sample (by decide)⟩

/-- C4: whatever the static array held, `r1 = set_array3(v1)` followed by
`r2 = set_array3(v2)` both return normally, `r1` and `r2` are the same pointer,
`r1` read `v1` in all five positions between the calls, and after the second
call both `r1` and `r2` read `v2` in all five positions. -/
theorem set_array3_aliases (v1 v2 : Int) (m : Mem) (blk : Block)
    (hb : m.blocks[array3]? = some blk) (hl : blk.live = true) (hw : blk.writable = true)
    (h5 : blk.cells.length = 5) :
    ∃ r1 m1 r2 m2, set_array3 v1 m = .ok (r1, m1) ∧ set_array3 v2 m1 = .ok (r2, m2) ∧
      r1 = r2 ∧
      (∀ i, i < 5 → load m1 (r1.add i) = .ok v1) ∧
      (∀ i, i < 5 → load m2 (r1.add i) = .ok v2) ∧
      (∀ i, i < 5 → load m2 (r2.add i) = .ok v2) := by
  have hlt := lt_of_getElem? hb
  have hb1 : (m.blocks.set array3 { blk with cells := List.replicate 5 (some v1) })[array3]? =
      some { blk with cells := List.replicate 5 (some v1) } :=
    List.getElem?_set_self hlt
  have hb2 : ((m.blocks.set array3 { blk with cells := List.replicate 5 (some v1) }).set array3
      { blk with cells := List.replicate 5 (some v2) })[array3]? =
      some { blk with cells := List.replicate 5 (some v2) } :=
    List.getElem?_set_self (by simpa using hlt)
  have h2 := set_array3_spec v2
    (m := { m with blocks := m.blocks.set array3 { blk with cells := List.replicate 5 (some v1) } })
    hb1 hl hw (by simp)
  refine ⟨_, _, _, _, set_array3_spec v1 hb hl hw h5, h2, rfl, ?_, ?_, ?_⟩
  · intro i hi
    simp only [Ptr.add, Nat.zero_add]
    exact load_replicate hb1 hl rfl hi
  · intro i hi
    simp only [Ptr.add, Nat.zero_add]
    exact load_replicate hb2 hl rfl hi
  · intro i hi
    simp only [Ptr.add, Nat.zero_add]
    exact load_replicate hb2 hl rfl hi

/-- C4 with `v1 = 4`, `v2 = -9` from the store in which the program starts. -/
theorem set_array3_aliases_witness :
    (start1 0).blocks[array3]? = some { cells := List.replicate 5 (some 0),
                                        live := true, writable := true } ∧
    ∃ r1 m1 r2 m2, set_array3 4 (start1 0) = .ok (r1, m1) ∧ set_array3 (-9) m1 = .ok (r2, m2) ∧
      r1 = r2 ∧
      (∀ i, i < 5 → load m1 (r1.add i) = .ok 4) ∧
      (∀ i, i < 5 → load m2 (r1.add i) = .ok (-9)) ∧
      (∀ i, i < 5 → load m2 (r2.add i) = .ok (-9)) :=
  ⟨rfl, set_array3_aliases 4 (-9) (start1 0) _ rfl rfl rfl rfl⟩

/-- C5: when the allocator can satisfy both requests, `r1 = set_array2(v1)`
followed by `r2 = set_array2(v2)`, nothing being released, both return
normally, `r1` and `r2` point to the starts of two different objects, both
live after the second call, where `r1` still reads `v1` in all five positions
and `r2` reads `v2` in all five positions. -/
theorem set_array2_independent (v1 v2 : Int) (m : Mem)
    (h : sizeof_int * 5 + sizeof_int * 5 ≤ m.avail) :
    ∃ b1 m1 b2 m2, set_array2 v1 m = .ok (.obj b1 0, m1) ∧
      set_array2 v2 m1 = .ok (.obj b2 0, m2) ∧
      b1 ≠ b2 ∧
      m2.blocks[b1]? = some { cells := List.replicate 5 (some v1), live := true, writable := true } ∧
      m2.blocks[b2]? = some { cells := List.replicate 5 (some v2), live := true, writable := true } ∧
      (∀ i, i < 5 → load m1 ((Ptr.obj b1 0).add i) = .ok v1) ∧
      (∀ i, i < 5 → load m2 ((Ptr.obj b1 0).add i) = .ok v1) ∧
      (∀ i, i < 5 → load m2 ((Ptr.obj b2 0).add i) = .ok v2) := by
  have h1 := set_array2_spec v1 m (by omega)
  have h2 := set_array2_spec v2
    { blocks := m.blocks ++ [{ cells := List.replicate 5 (some v1), live := true, writable := true }],
      avail := m.avail - sizeof_int * 5 } (by simp only; omega)
  have hb1 : ((m.blocks ++ [(⟨List.replicate 5 (some v1), true, true⟩ : Block)]) ++
      [(⟨List.replicate 5 (some v2), true, true⟩ : Block)])[m.blocks.length]? =
      some ⟨List.replicate 5 (some v1), true, true⟩ := by
    rw [List.getElem?_append_left (by simp), List.getElem?_concat_length]
  refine ⟨_, _, _, _, h1, h2, ?_, hb1, List.getElem?_concat_length _ _, ?_, ?_, ?_⟩
  · simp
  · intro i hi
    exact load_appended rfl rfl hi
  · intro i hi
    simp only [Ptr.add, Nat.zero_add]
    exact load_replicate hb1 rfl rfl hi
  · intro i hi
    exact load_appended rfl rfl hi

/-- C5 with `v1 = 4`, `v2 = -9` and 64 bytes left. -/
theorem set_array2_independent_witness :
    sizeof_int * 5 + sizeof_int * 5 ≤ sample.avail ∧
    ∃ b1 m1 b2 m2, set_array2 4 sample = .ok (.obj b1 0, m1) ∧
      set_array2 (-9) m1 = .ok (.obj b2 0, m2) ∧
      b1 ≠ b2 ∧
      m2.blocks[b1]? = some { cells := List.replicate 5 (some 4), live := true, writable := true } ∧
      m2.blocks[b2]? = some { cells := List.replicate 5 (some (-9)), live := true, writable := true } ∧
      (∀ i, i < 5 → load m1 ((Ptr.obj b1 0).add i) = .ok 4) ∧
      (∀ i, i < 5 → load m2 ((Ptr.obj b1 0).add i) = .ok 4) ∧
      (∀ i, i < 5 → load m2 ((Ptr.obj b2 0).add i) = .ok (-9)) :=
  ⟨by decide, set_array2_independent 4 (-9) sample (by decide)⟩

/-- C7: in every store and for every `v`, `set_array(v)` returns a pointer to an
object whose lifetime has ended, so that no read of `result[i]`, `i` from 0 to
4, is defined, nor any write; whereas after `set_array1` on a live writable
buffer of at least five elements, after `set_array2` when `malloc` returned a
non-null pointer, and after `set_array3`, each of the five reads is defined
and yields `v`. -/
theorem set_array_dangling (v : Int) (m : Mem) :
    (∃ r m', set_array v m = .ok (r, m') ∧
      (∀ i, i < 5 → load m' (r.add i) = .error .lifetimeEnded) ∧
      (∀ i, i < 5 → ∀ w, store m' (r.add i) w = .error .lifetimeEnded)) ∧
    (∀ b blk, m.blocks[b]? = some blk → blk.live = true → blk.writable = true →
      5 ≤ blk.cells.length →
      ∃ m', set_array1 v (.obj b 0) m = .ok m' ∧
        ∀ i, i < 5 → load m' ((Ptr.obj b 0).add i) = .ok v) ∧
    ((malloc m (sizeof_int * 5)).1 ≠ Ptr.null →
      ∃ r m', set_array2 v m = .ok (r, m') ∧ ∀ i, i < 5 → load m' (r.add i) = .ok v) ∧
    (∀ blk, m.blocks[array3]? = some blk → blk.live = true → blk.writable = true →
      blk.cells.length = 5 →
      ∃ r m', set_array3 v m = .ok (r, m') ∧ ∀ i, i < 5 → load m' (r.add i) = .ok v) := by
  refine ⟨⟨_, _, set_array_spec v m, ?_, ?_⟩, ?_, ?_, ?_⟩
  · intro i _
    exact load_dead _ (List.getElem?_concat_length _ _) rfl
  · intro i _ w
    simp [store, Ptr.add]
  · intro b blk hb hl hw h5
    obtain ⟨cells, _, hin, _, hrun⟩ := fill5_ok v hb hl hw (by omega : 0 + 5 ≤ blk.cells.length)
    refine ⟨_, hrun, ?_⟩
    intro i hi
    have hnew : (m.blocks.set b { blk with cells := cells })[b]? =
        some { blk with cells := cells } :=
      List.getElem?_set_self (lt_of_getElem? hb)
    simp only [Ptr.add, Nat.zero_add]
    exact load_ok hnew hl (hin i (Nat.zero_le _) (by omega))
  · intro h
    refine ⟨_, _, set_array2_spec v m (malloc_avail h), ?_⟩
    intro i hi
    exact load_appended rfl rfl hi
  · intro blk hb hl hw h5
    refine ⟨_, _, set_array3_spec v hb hl hw h5, ?_⟩
    intro i hi
    have hnew : (m.blocks.set array3 { blk with cells := List.replicate 5 (some v) })[array3]? =
        some { blk with cells := List.replicate 5 (some v) } :=
      List.getElem?_set_self (lt_of_getElem? hb)
    simp only [Ptr.add, Nat.zero_add]
    exact load_replicate hnew hl rfl hi

/-- C7 at `v = 4`: the four functions side by side on one store. -/
theorem set_array_dangling_witness :
    (∃ r m', set_array 4 sample = .ok (r, m') ∧
      (∀ i, i < 5 → load m' (r.add i) = .error .lifetimeEnded) ∧
      (∀ i, i < 5 → ∀ w, store m' (r.add i) w = .error .lifetimeEnded)) ∧
    (∃ m', set_array1 4 (.obj 2 0) sample = .ok m' ∧
      ∀ i, i < 5 → load m' ((Ptr.obj 2 0).add i) = .ok 4) ∧
    (∃ r m', set_array2 4 sample = .ok (r, m') ∧ ∀ i, i < 5 → load m' (r.add i) = .ok 4) ∧
    (∃ r m', set_array3 4 sample = .ok (r, m') ∧ ∀ i, i < 5 → load m' (r.add i) = .ok 4) :=
  ⟨(set_array_dangling 4 sample).1,
   (set_array_dangling 4 sample).2.1 2 _ rfl rfl rfl (by decide),
   (set_array_dangling 4 sample).2.2.1 (by decide),
   (set_array_dangling 4 sample).2.2.2 _ rfl rfl rfl rfl⟩

/-! ## `array_vs_&array.c`: properties -/

/-- C9: in any store holding the 3x5 matrix 0..14 as a live object, for a row
index `r` with `r + 1 < 3` the expression `*(*(&matrix[r] + 1))` is defined and
equals `matrix[r+1][0]`, which is `5 * (r + 1)`; and `main`, wherever its
objects are placed, exits with status 0 having printed 10 both for `*pointer`
and for `*(*(&matrix[1] + 1))`. -/
theorem row_step (m : Mem) (b : Nat) (blk : Block) (r : Nat)
    (hb : m.blocks[b]? = some blk) (hl : blk.live = true)
    (hc : blk.cells = rowMajor matrix_init) (hr : r + 1 < 3) :
    derefTwice m (.obj b 0) r = .ok (5 * ((r : Int) + 1)) ∧
    index2 m (.obj b 0) (r + 1) 0 = .ok (5 * ((r : Int) + 1)) ∧
    ∀ (base : Nat → Nat) (avail : Nat), ∃ out m',
      ArrayVsAddrArray.main base (start2 avail) = .ok (0, out, m') ∧
      out.length = 10 ∧
      out[8]? = some "*pointer: 10\n" ∧
      out[9]? = some "*(*(&matrix[1] + 1)): 10\n\n" := by
  have hr2 : r = 0 ∨ r = 1 := by omega
  refine ⟨?_, ?_, ?_⟩
  · rcases hr2 with rfl | rfl <;>
      simp [derefTwice, addrRow, Ptr.addRow, Ptr.add, load, hb, hl, hc, rowMajor, matrix_init]
  · rcases hr2 with rfl | rfl <;>
      simp [index2, Ptr.addRow, Ptr.add, load, hb, hl, hc, rowMajor, matrix_init]
  · intro base avail
    exact ⟨_, _, rfl, rfl, rfl, rfl⟩

/-- C9 at `r = 1`, the row `main` steps from: the value is 10. -/
theorem row_step_witness :
    derefTwice { blocks := [⟨rowMajor matrix_init, true, true⟩], avail := 0 } (.obj 0 0) 1 = .ok 10 ∧
    index2 { blocks := [⟨rowMajor matrix_init, true, true⟩], avail := 0 } (.obj 0 0) 2 0 = .ok 10 ∧
    ∀ (base : Nat → Nat) (avail : Nat), ∃ out m',
      ArrayVsAddrArray.main base (start2 avail) = .ok (0, out, m') ∧
      out.length = 10 ∧
      out[8]? = some "*pointer: 10\n" ∧
      out[9]? = some "*(*(&matrix[1] + 1)): 10\n\n" :=
  row_step { blocks := [⟨rowMajor matrix_init, true, true⟩], avail := 0 } 0 _ 1 rfl rfl rfl
    (by decide)

/-! ## `char_array_vs_string_literal_pointer.c`: properties -/

/-- C8: `sizeof(s1)` is 8, so it differs from `sizeof(s2)` exactly on the
platforms whose pointers do not take 8 bytes; where they take 8 bytes `main`
prints the same number, 8, on its last two lines. -/
theorem sizeof_s1_eq_sizeof_s2 :
    CharArrayVsStringLiteralPointer.sizeof_s1 = 8 ∧
    (∀ sizeof_ptr : Nat, CharArrayVsStringLiteralPointer.sizeof_s1 ≠ sizeof_ptr ↔ sizeof_ptr ≠ 8) ∧
    ∀ avail : Nat, ∃ m', CharArrayVsStringLiteralPointer.main 8 (start3 avail) = .ok (0,
      ["s1: Xiteral\n", "s2: iteral\n", "s2: new literal\n", "size of s1: 8\n",
       "size of s2: 8\n"], m') :=
  ⟨rfl, fun _ => ⟨fun h e => h (e ▸ rfl), fun h e => h (e ▸ rfl)⟩, fun _ => ⟨_, rfl⟩⟩

/-- C10: `main` reaches `return 0;` with `s1` an object of its own holding
"Xiteral": eight bytes, the first changed to 'X', the others and the
terminating NUL as in "literal"; the literal `s2` was initialised with still
holds "literal" and is read-only; the first three lines printed are
"s1: Xiteral", "s2: iteral" (after `s2++`) and "s2: new literal" (after the
assignment), and `s2` then reads "new literal" while `s1` reads "Xiteral". -/
theorem char_array_against_literal (sizeof_ptr avail : Nat) :
    ∃ f, CharArrayVsStringLiteralPointer.body sizeof_ptr (start3 avail) = .ok f ∧
      f.s1 ≠ lit_literal ∧ f.s1 ≠ lit_new_literal ∧
      f.mem.blocks[f.s1]? = some { cells := literal "Xiteral", live := true, writable := true } ∧
      (literal "Xiteral").length = (literal "literal").length ∧
      (literal "Xiteral")[0]? = some (some ('X'.toNat : Int)) ∧
      (∀ j, j ≠ 0 → (literal "Xiteral")[j]? = (literal "literal")[j]?) ∧
      (literal "Xiteral")[7]? = some (some 0) ∧
      f.mem.blocks[lit_literal]? =
        some { cells := literal "literal", live := true, writable := false } ∧
      f.mem.blocks[lit_new_literal]? =
        some { cells := literal "new literal", live := true, writable := false } ∧
      f.out.take 3 = ["s1: Xiteral\n", "s2: iteral\n", "s2: new literal\n"] ∧
      cstring f.mem ((Ptr.obj lit_literal 0).add 1) = .ok "iteral" ∧
      f.s2 = .obj lit_new_literal 0 ∧
      cstring f.mem f.s2 = .ok "new literal" ∧
      cstring f.mem (.obj f.s1 0) = .ok "Xiteral" := by
  refine ⟨_, rfl, (show (2 : Nat) ≠ 0 by decide), (show (2 : Nat) ≠ 1 by decide), rfl, rfl, rfl, ?_, rfl, rfl, rfl, rfl, rfl, rfl, rfl, rfl⟩
  intro j hj
  match j, hj with
  | 0, h => exact absurd rfl h
  | 1, _ | 2, _ | 3, _ | 4, _ | 5, _ | 6, _ | 7, _ => rfl
  | j + 8, _ =>
    have hx : (literal "Xiteral").length = 8 := rfl
    have hl : (literal "literal").length = 8 := rfl
    rw [List.getElem?_eq_none (by omega), List.getElem?_eq_none (by omega)]

end CPlayground
